import Mathlib

/-!
Shallow embedding of the core logic of `src/app.py` (student PE check app):
the Period Resolver (`get_period_from_now` over `PERIOD_SCHEDULE`) and the
Timetable Query Engine (`check_pe`, `get_today_pe_summary`,
`get_today_pe_periods_for_class`), together with proofs of the specified
properties.

Python `datetime.time` values are modelled as records of
(hour, minute, second, microsecond) compared lexicographically, exactly as
Python compares `time` objects.  A pandas `DataFrame` of timetable rows is
modelled as a `List TimetableRow`; the Korean column names of the source
(학년, 반, 요일, 교시, 과목) are rendered as
(grade, class_no, weekday, period, subject).
-/

namespace App

/-- Model of Python `datetime.time`: hour, minute, second, microsecond. -/
structure Time where
  hour : Nat
  minute : Nat
  second : Nat
  microsecond : Nat
deriving DecidableEq

/-- Python compares `time` objects lexicographically on
(hour, minute, second, microsecond). -/
def Time.lt (a b : Time) : Bool :=
  decide (a.hour < b.hour) ||
    (decide (a.hour = b.hour) &&
      (decide (a.minute < b.minute) ||
        (decide (a.minute = b.minute) &&
          (decide (a.second < b.second) ||
            (decide (a.second = b.second) &&
              decide (a.microsecond < b.microsecond))))))

/-- Python `<=` on `time` objects: `<` or equal. -/
def Time.le (a b : Time) : Bool :=
  Time.lt a b || decide (a = b)

/-- Model of Python `datetime.datetime`: a date part plus the time-of-day
fields.  Timezone is irrelevant to the resolver, which only reads
`now.time()`. -/
structure Datetime where
  year : Nat
  month : Nat
  day : Nat
  hour : Nat
  minute : Nat
  second : Nat
  microsecond : Nat
deriving DecidableEq

/-- Python `now.time()`: extract the time-of-day component. -/
def Datetime.time (d : Datetime) : Time :=
  ⟨d.hour, d.minute, d.second, d.microsecond⟩

/-- One entry of `PERIOD_SCHEDULE` (src/app.py lines 34-42).  The source
stores `start`/`end` as "HH:MM" strings; here an "HH:MM" string is
represented as the pair (HH, MM).  The source key `end` is a Lean keyword,
so the field is named `stop`. -/
structure PeriodWindow where
  period : Nat
  start : Nat × Nat
  stop : Nat × Nat
deriving DecidableEq

/-- Model of `parse_hm` (src/app.py lines 78-79): an "HH:MM" string,
represented as the pair (HH, MM), becomes a `time` with zero seconds and
microseconds. -/
def parse_hm (hm : Nat × Nat) : Time :=
  ⟨hm.1, hm.2, 0, 0⟩

/-- `PERIOD_SCHEDULE` (src/app.py lines 34-42). -/
def PERIOD_SCHEDULE : List PeriodWindow :=
  [⟨1, (8, 50), (9, 40)⟩,
   ⟨2, (9, 50), (10, 40)⟩,
   ⟨3, (10, 50), (11, 40)⟩,
   ⟨4, (11, 50), (12, 40)⟩,
   ⟨5, (13, 40), (14, 30)⟩,
   ⟨6, (14, 40), (15, 30)⟩,
   ⟨7, (15, 40), (16, 30)⟩]

/-- Body of the loop in `get_period_from_now` (src/app.py lines 81-85):
`start_t <= current_t < end_t` for one schedule item. -/
def inWindow (item : PeriodWindow) (current_t : Time) : Bool :=
  Time.le (parse_hm item.start) current_t && Time.lt current_t (parse_hm item.stop)

/-- The `for item in PERIOD_SCHEDULE` loop of `get_period_from_now`
(src/app.py lines 81-87): return the period of the first matching item,
else `None`. -/
def scanSchedule (current_t : Time) : List PeriodWindow → Option Nat
  | [] => none
  | item :: rest =>
      if inWindow item current_t then some item.period else scanSchedule current_t rest

/-- `get_period_from_now` (src/app.py lines 74-87). -/
def get_period_from_now (now : Datetime) : Option Nat :=
  scanSchedule now.time PERIOD_SCHEDULE

/-- `PE_KEYWORD` (src/app.py line 44). -/
def PE_KEYWORD : String := "체육"

/-- One row of the timetable DataFrame (columns 학년, 반, 요일, 교시, 과목;
see `load_timetable`, src/app.py lines 61-71). -/
structure TimetableRow where
  grade : Int
  class_no : Int
  weekday : String
  period : Int
  subject : String
deriving DecidableEq

/-- Substring search over character lists: true iff `pat` occurs as a
contiguous run inside `l`.  This is the semantics of Python's
`pat in s` on strings (and of `Series.str.contains` for a pattern with no
regex metacharacters, as is the case for `PE_KEYWORD`). -/
def containsSub (pat : List Char) : List Char → Bool
  | [] => List.isPrefixOf pat []
  | a :: t => List.isPrefixOf pat (a :: t) || containsSub pat t

/-- Python `pat in s` for strings `s`, `pat`. -/
def strContains (s pat : String) : Bool :=
  containsSub pat.data s.data

/-- `check_pe` (src/app.py lines 90-103). -/
def check_pe (df : List TimetableRow) (grade class_no : Int) (weekday : String)
    (period : Int) : Bool :=
  let sub_df := df.filter (fun r =>
    r.grade == grade && r.class_no == class_no && r.weekday == weekday &&
      r.period == period)
  if sub_df.isEmpty then false
  else sub_df.any (fun r => strContains r.subject PE_KEYWORD)

/-- Ascending lexicographic order on (학년, 반) keys, as used by
`groupby(["학년", "반"])` and `sort_values(["학년", "반"])`
(src/app.py lines 114-120). -/
def keyLe (a b : Int × Int) : Prop :=
  a.1 < b.1 ∨ (a.1 = b.1 ∧ a.2 ≤ b.2)

instance : DecidableRel keyLe := fun a b =>
  decidable_of_iff (a.1 < b.1 ∨ (a.1 = b.1 ∧ a.2 ≤ b.2)) Iff.rfl

instance : IsTotal (Int × Int) keyLe :=
  ⟨by
    intro a b
    simp only [keyLe]
    omega⟩

instance : IsTrans (Int × Int) keyLe :=
  ⟨by
    intro a b c hab hbc
    simp only [keyLe] at *
    omega⟩

/-- The per-group aggregation of `get_today_pe_summary`
(src/app.py line 116): the 교시 values of the group's rows, de-duplicated
(`unique()`) and sorted ascending (`sorted`). -/
def group_periods (sub : List TimetableRow) (g c : Int) : List Int :=
  List.insertionSort (fun a b => a ≤ b)
    (((sub.filter (fun r => r.grade == g && r.class_no == c)).map
        (fun r => r.period)).dedup)

/-- `get_today_pe_summary` (src/app.py lines 106-122), modelled up to
display formatting: the result DataFrame is the list of rows
(학년, 반, sorted distinct 체육 교시), sorted ascending by (학년, 반) as
`groupby` + `sort_values` produce.  The source renders the period list as
a joined string; `get_today_pe_summary_display` adds that formatting. -/
def get_today_pe_summary (df : List TimetableRow) (weekday : String) :
    List (Int × Int × List Int) :=
  let sub := df.filter (fun r =>
    r.weekday == weekday && strContains r.subject PE_KEYWORD)
  if sub.isEmpty then []
  else
    let keys := List.insertionSort keyLe
      ((sub.map (fun r => (r.grade, r.class_no))).dedup)
    keys.map (fun k => (k.1, k.2, group_periods sub k.1 k.2))

/-- The string rendering `", ".join(str(p) + "교시" ...)` of
src/app.py line 116. -/
def format_periods (ps : List Int) : String :=
  String.intercalate ", " (ps.map (fun p => toString p ++ "교시"))

/-- `get_today_pe_summary` including the display formatting of the
체육 교시 column. -/
def get_today_pe_summary_display (df : List TimetableRow) (weekday : String) :
    List (Int × Int × String) :=
  (get_today_pe_summary df weekday).map
    (fun row => (row.1, row.2.1, format_periods row.2.2))

/-- `get_today_pe_periods_for_class` (src/app.py lines 125-140). -/
def get_today_pe_periods_for_class (df : List TimetableRow)
    (grade class_no : Int) (weekday : String) : List Int :=
  let sub := df.filter (fun r =>
    r.grade == grade && r.class_no == class_no && r.weekday == weekday &&
      strContains r.subject PE_KEYWORD)
  if sub.isEmpty then []
  else List.insertionSort (fun a b => a ≤ b)
    ((sub.map (fun r => r.period)).dedup)

/-- A small concrete timetable used to instantiate the general theorems:
grade 1 class 2 has PE (체육) in periods 5 and 3 on Tuesday (화요일), and
grade 2 class 1 has mathematics (수학) in period 2. -/
def sample_timetable : List TimetableRow :=
  [⟨1, 2, "화요일", 5, "체육"⟩,
   ⟨1, 2, "화요일", 3, "체육(축구)"⟩,
   ⟨2, 1, "화요일", 2, "수학"⟩]

/-! ### Period Resolver lemmas -/

theorem scanSchedule_eq_none (t : Time) (l : List PeriodWindow) :
    scanSchedule t l = none ↔ ∀ w ∈ l, inWindow w t = false := by
  induction l with
  | nil => simp [scanSchedule]
  | cons a l ih => cases hw : inWindow a t <;> simp [scanSchedule, hw, ih]

theorem scanSchedule_eq_some (t : Time) (l : List PeriodWindow) (p : Nat) :
    scanSchedule t l = some p ↔
      ∃ l₁ w l₂, l = l₁ ++ w :: l₂ ∧ inWindow w t = true ∧ w.period = p ∧
        ∀ w' ∈ l₁, inWindow w' t = false := by
  induction l with
  | nil =>
      constructor
      · intro h
        simp [scanSchedule] at h
      · rintro ⟨l₁, w, l₂, h, -, -, -⟩
        exact absurd h (by simp)
  | cons a l ih =>
      constructor
      · intro h
        by_cases hw : inWindow a t = true
        · rw [scanSchedule, if_pos hw] at h
          exact ⟨[], a, l, by simp, hw, Option.some.inj h, by simp⟩
        · rw [scanSchedule, if_neg hw] at h
          obtain ⟨l₁, w, l₂, hdec, hin, hp, hfail⟩ := ih.mp h
          refine ⟨a :: l₁, w, l₂, by simp [hdec], hin, hp, ?_⟩
          intro w' hw'
          rcases List.mem_cons.mp hw' with rfl | hmem
          · exact Bool.eq_false_iff.mpr hw
          · exact hfail w' hmem
      · rintro ⟨l₁, w, l₂, hdec, hin, hp, hfail⟩
        cases l₁ with
        | nil =>
            simp only [List.nil_append, List.cons.injEq] at hdec
            obtain ⟨rfl, rfl⟩ := hdec
            rw [scanSchedule, if_pos hin, hp]
        | cons b l₁ =>
            simp only [List.cons_append, List.cons.injEq] at hdec
            obtain ⟨rfl, hdec⟩ := hdec
            have ha : inWindow a t = false := hfail a (List.mem_cons_self a l₁)
            rw [scanSchedule, if_neg (by simp [ha])]
            exact ih.mpr ⟨l₁, w, l₂, hdec, hin, hp,
              fun w' h' => hfail w' (List.mem_cons_of_mem _ h')⟩

/-! ### Claims about the Period Resolver -/

/-- C1: for every timestamp `now`, `get_period_from_now` scans
`PERIOD_SCHEDULE` in list order and returns the period number of the first
window whose half-open interval satisfies `start <= time-of-day(now) < end`;
if no window contains the time-of-day, it returns `none` ("no period"). -/
theorem claim_C1_resolver_first_match (now : Datetime) :
    (∀ p, get_period_from_now now = some p ↔
        ∃ l₁ w l₂, PERIOD_SCHEDULE = l₁ ++ w :: l₂ ∧
          inWindow w now.time = true ∧ w.period = p ∧
          ∀ w' ∈ l₁, inWindow w' now.time = false) ∧
    (get_period_from_now now = none ↔
        ∀ w ∈ PERIOD_SCHEDULE, inWindow w now.time = false) :=
  ⟨fun p => scanSchedule_eq_some now.time PERIOD_SCHEDULE p,
   scanSchedule_eq_none now.time PERIOD_SCHEDULE⟩

/-- C2: with the configured schedule (window period=1 is [08:50, 09:40)),
the resolver returns 1 at 09:00, 1 at exactly 08:50 (inclusive start),
"no period" at exactly 09:40 (exclusive end), and "no period" at 09:45
(gap before the next window). -/
theorem claim_C2_resolver_scenario :
    get_period_from_now ⟨2026, 10, 12, 9, 0, 0, 0⟩ = some 1 ∧
    get_period_from_now ⟨2026, 10, 12, 8, 50, 0, 0⟩ = some 1 ∧
    get_period_from_now ⟨2026, 10, 12, 9, 40, 0, 0⟩ = none ∧
    get_period_from_now ⟨2026, 10, 12, 9, 45, 0, 0⟩ = none := by
  decide

/-- C9: the resolver depends only on the time-of-day component of its
input; two timestamps with equal time-of-day give equal results, whatever
their dates. -/
theorem claim_C9_time_only_noninterference (d₁ d₂ : Datetime)
    (h : d₁.time = d₂.time) :
    get_period_from_now d₁ = get_period_from_now d₂ := by
  unfold get_period_from_now
  rw [h]

/-- Witness for C9: two timestamps on different dates with the same
time-of-day 10:00 resolve identically. -/
theorem claim_C9_witness :
    get_period_from_now ⟨2026, 1, 5, 10, 0, 0, 0⟩ =
      get_period_from_now ⟨1999, 12, 31, 10, 0, 0, 0⟩ :=
  claim_C9_time_only_noninterference ⟨2026, 1, 5, 10, 0, 0, 0⟩
    ⟨1999, 12, 31, 10, 0, 0, 0⟩ rfl

/-! ### Substring and `check_pe` lemmas -/

theorem isPrefixOf_append_self (pat l : List Char) :
    List.isPrefixOf pat (pat ++ l) = true := by
  induction pat with
  | nil => simp
  | cons a as ih => simp [List.isPrefixOf, ih]

theorem containsSub_of_isPrefixOf {pat l : List Char}
    (h : List.isPrefixOf pat l = true) : containsSub pat l = true := by
  cases l with
  | nil => exact h
  | cons a t => simp [containsSub, h]

theorem containsSub_sandwich (pat l₁ l₂ : List Char) :
    containsSub pat (l₁ ++ pat ++ l₂) = true := by
  induction l₁ with
  | nil =>
      simpa using containsSub_of_isPrefixOf (isPrefixOf_append_self pat l₂)
  | cons b l₁ ih =>
      rw [List.cons_append]
      show (List.isPrefixOf pat _ || containsSub pat (l₁ ++ pat ++ l₂)) = true
      rw [ih, Bool.or_true]

theorem strContains_sandwich (pre suf pat : String) :
    strContains (pre ++ pat ++ suf) pat = true := by
  simp only [strContains, String.data_append]
  exact containsSub_sandwich pat.data pre.data suf.data

theorem check_pe_iff (df : List TimetableRow) (g c : Int) (w : String)
    (p : Int) :
    check_pe df g c w p = true ↔
      ∃ r ∈ df, r.grade = g ∧ r.class_no = c ∧ r.weekday = w ∧ r.period = p ∧
        strContains r.subject PE_KEYWORD = true := by
  constructor
  · intro h
    simp only [check_pe] at h
    by_cases he : (df.filter (fun r =>
        r.grade == g && r.class_no == c && r.weekday == w && r.period == p)).isEmpty = true
    · rw [if_pos he] at h
      exact absurd h (by simp)
    · rw [if_neg he] at h
      obtain ⟨r, hr, hc⟩ := List.any_eq_true.mp h
      have hm := List.mem_filter.mp hr
      have hcond := hm.2
      simp only [Bool.and_eq_true, beq_iff_eq] at hcond
      exact ⟨r, hm.1, hcond.1.1.1, hcond.1.1.2, hcond.1.2, hcond.2, hc⟩
  · rintro ⟨r, hr, hg, hc, hw, hp, hcont⟩
    have hmem : r ∈ df.filter (fun r =>
        r.grade == g && r.class_no == c && r.weekday == w && r.period == p) :=
      List.mem_filter.mpr ⟨hr, by simp [hg, hc, hw, hp]⟩
    simp only [check_pe]
    rw [if_neg (fun he =>
      absurd (List.isEmpty_iff.mp he ▸ hmem) (List.not_mem_nil r))]
    exact List.any_eq_true.mpr ⟨r, hmem, hcont⟩

/-! ### Claims about `check_pe` -/

/-- C3: `check_pe` is true iff at least one row matching all four keys has
a subject label containing the configured PE keyword as a substring; in
particular it is false when no row matches the four keys at all. -/
theorem claim_C3_check_pe_keyword (df : List TimetableRow) (g c : Int)
    (w : String) (p : Int) :
    (check_pe df g c w p = true ↔
      ∃ r ∈ df, r.grade = g ∧ r.class_no = c ∧ r.weekday = w ∧ r.period = p ∧
        strContains r.subject PE_KEYWORD = true) ∧
    ((∀ r ∈ df, ¬(r.grade = g ∧ r.class_no = c ∧ r.weekday = w ∧ r.period = p)) →
      check_pe df g c w p = false) := by
  refine ⟨check_pe_iff df g c w p, fun hnone => ?_⟩
  rw [Bool.eq_false_iff]
  intro htrue
  obtain ⟨r, hr, hg, hc, hw, hp, -⟩ := (check_pe_iff df g c w p).mp htrue
  exact hnone r hr ⟨hg, hc, hw, hp⟩

/-- Witness for C3: on a timetable whose only row is
(1, 2, 월요일, 3, 수학), the query (2, 9, 금요일, 1) matches no row and
`check_pe` returns false. -/
theorem claim_C3_witness :
    check_pe [⟨1, 2, "월요일", 3, "수학"⟩] 2 9 "금요일" 1 = false :=
  (claim_C3_check_pe_keyword [⟨1, 2, "월요일", 3, "수학"⟩] 2 9 "금요일" 1).2
    (by decide)

/-- C4: for the timetable with the single row
(grade 1, class 2, Monday, period 3, subject = PE keyword), `check_pe` is
true at (1, 2, Monday, 3), false at period 4, and false for class 3.
Monday is 월요일 and the configured PE subject label is 체육. -/
theorem claim_C4_check_pe_scenario :
    check_pe [⟨1, 2, "월요일", 3, "체육"⟩] 1 2 "월요일" 3 = true ∧
    check_pe [⟨1, 2, "월요일", 3, "체육"⟩] 1 2 "월요일" 4 = false ∧
    check_pe [⟨1, 2, "월요일", 3, "체육"⟩] 1 3 "월요일" 3 = false := by
  decide

/-- C7: `check_pe` is monotonic under keyword relaxation: a row matching
the four keys whose subject is the PE keyword with anything prepended
(`pre`) and appended (`suf`) makes `check_pe` true; `pre = suf = ""` is
the exact-equality case. -/
theorem claim_C7_keyword_monotonic (df : List TimetableRow) (g c : Int)
    (w : String) (p : Int) (pre suf : String) (r : TimetableRow)
    (hmem : r ∈ df) (hg : r.grade = g) (hc : r.class_no = c)
    (hw : r.weekday = w) (hp : r.period = p)
    (hsubj : r.subject = pre ++ PE_KEYWORD ++ suf) :
    check_pe df g c w p = true := by
  refine (check_pe_iff df g c w p).mpr ⟨r, hmem, hg, hc, hw, hp, ?_⟩
  rw [hsubj]
  exact strContains_sandwich pre suf PE_KEYWORD

/-- Witness for C7: the label 초급체육(축구) contains 체육 with 초급
prepended and (축구) appended, and `check_pe` is true on it. -/
theorem claim_C7_witness :
    check_pe [⟨1, 2, "월요일", 3, "초급체육(축구)"⟩] 1 2 "월요일" 3 = true :=
  claim_C7_keyword_monotonic [⟨1, 2, "월요일", 3, "초급체육(축구)"⟩] 1 2
    "월요일" 3 "초급" "(축구)" ⟨1, 2, "월요일", 3, "초급체육(축구)"⟩
    (List.mem_singleton.mpr rfl) rfl rfl rfl rfl (by decide)

/-- C8: a no-match condition is never an error: when zero rows match,
`check_pe` returns false, `get_today_pe_summary` returns the empty list,
and `get_today_pe_periods_for_class` returns the empty list. -/
theorem claim_C8_no_match_is_empty :
    (∀ (df : List TimetableRow) (g c : Int) (w : String) (p : Int),
      (∀ r ∈ df, ¬(r.grade = g ∧ r.class_no = c ∧ r.weekday = w ∧ r.period = p)) →
      check_pe df g c w p = false) ∧
    (∀ (df : List TimetableRow) (w : String),
      (∀ r ∈ df, ¬(r.weekday = w ∧ strContains r.subject PE_KEYWORD = true)) →
      get_today_pe_summary df w = []) ∧
    (∀ (df : List TimetableRow) (g c : Int) (w : String),
      (∀ r ∈ df, ¬(r.grade = g ∧ r.class_no = c ∧ r.weekday = w ∧
          strContains r.subject PE_KEYWORD = true)) →
      get_today_pe_periods_for_class df g c w = []) := by
  refine ⟨?_, ?_, ?_⟩
  · intro df g c w p hnone
    rw [Bool.eq_false_iff]
    intro htrue
    obtain ⟨r, hr, hg, hc, hw, hp, -⟩ := (check_pe_iff df g c w p).mp htrue
    exact hnone r hr ⟨hg, hc, hw, hp⟩
  · intro df w h
    have hnil : df.filter (fun r =>
        r.weekday == w && strContains r.subject PE_KEYWORD) = [] := by
      rw [List.filter_eq_nil_iff]
      intro r hr hcond
      simp only [Bool.and_eq_true, beq_iff_eq] at hcond
      exact h r hr hcond
    simp [get_today_pe_summary, hnil]
  · intro df g c w h
    have hnil : df.filter (fun r =>
        r.grade == g && r.class_no == c && r.weekday == w &&
          strContains r.subject PE_KEYWORD) = [] := by
      rw [List.filter_eq_nil_iff]
      intro r hr hcond
      simp only [Bool.and_eq_true, beq_iff_eq] at hcond
      exact h r hr ⟨hcond.1.1.1, hcond.1.1.2, hcond.1.2, hcond.2⟩
    simp [get_today_pe_periods_for_class, hnil]

/-- Witness for C8: on the empty timetable every query returns its empty
result. -/
theorem claim_C8_witness :
    check_pe [] 1 2 "월요일" 3 = false ∧
    get_today_pe_summary [] "월요일" = [] ∧
    get_today_pe_periods_for_class [] 1 2 "월요일" = [] :=
  ⟨claim_C8_no_match_is_empty.1 [] 1 2 "월요일" 3 (by simp),
   claim_C8_no_match_is_empty.2.1 [] "월요일" (by simp),
   claim_C8_no_match_is_empty.2.2 [] 1 2 "월요일" (by simp)⟩

/-! ### Sorting and grouping lemmas -/

theorem sortedInts_pairwise_lt (l : List Int) :
    (List.insertionSort (fun a b => a ≤ b) l.dedup).Pairwise (· < ·) := by
  have hs : List.Pairwise (fun a b : Int => a ≤ b)
      (List.insertionSort (fun a b => a ≤ b) l.dedup) :=
    List.sorted_insertionSort (fun a b => a ≤ b) l.dedup
  have hn : (List.insertionSort (fun a b => a ≤ b) l.dedup).Nodup :=
    (List.perm_insertionSort (fun a b => a ≤ b) l.dedup).nodup_iff.mpr
      (List.nodup_dedup l)
  exact (List.Pairwise.and hs hn).imp fun h => lt_of_le_of_ne h.1 h.2

theorem mem_sortedInts (l : List Int) (p : Int) :
    p ∈ List.insertionSort (fun a b => a ≤ b) l.dedup ↔ p ∈ l := by
  rw [List.mem_insertionSort, List.mem_dedup]

theorem keys_sorted (l : List (Int × Int)) :
    (List.insertionSort keyLe l.dedup).Pairwise
      (fun a b => a.1 < b.1 ∨ (a.1 = b.1 ∧ a.2 < b.2)) := by
  have hs : List.Pairwise keyLe (List.insertionSort keyLe l.dedup) :=
    List.sorted_insertionSort keyLe l.dedup
  have hn : (List.insertionSort keyLe l.dedup).Nodup :=
    (List.perm_insertionSort keyLe l.dedup).nodup_iff.mpr (List.nodup_dedup l)
  refine (List.Pairwise.and hs hn).imp ?_
  intro a b h
  obtain ⟨hle, hne⟩ := h
  rcases a with ⟨a1, a2⟩
  rcases b with ⟨b1, b2⟩
  simp only [keyLe] at hle
  simp only [ne_eq, Prod.mk.injEq, not_and] at hne
  dsimp only
  omega

theorem mem_sortKeys (l : List (Int × Int)) (k : Int × Int) :
    k ∈ List.insertionSort keyLe l.dedup ↔ k ∈ l := by
  rw [List.mem_insertionSort, List.mem_dedup]

theorem group_periods_pairwise (sub : List TimetableRow) (g c : Int) :
    (group_periods sub g c).Pairwise (· < ·) := by
  simp only [group_periods]
  exact sortedInts_pairwise_lt _

theorem group_periods_mem (sub : List TimetableRow) (g c p : Int) :
    p ∈ group_periods sub g c ↔
      ∃ r ∈ sub, r.grade = g ∧ r.class_no = c ∧ r.period = p := by
  simp only [group_periods]
  rw [mem_sortedInts, List.mem_map]
  constructor
  · rintro ⟨r, hr, hp⟩
    have hm := List.mem_filter.mp hr
    have hcond := hm.2
    simp only [Bool.and_eq_true, beq_iff_eq] at hcond
    exact ⟨r, hm.1, hcond.1, hcond.2, hp⟩
  · rintro ⟨r, hr, hg, hc, hp⟩
    exact ⟨r, List.mem_filter.mpr ⟨hr, by simp [hg, hc]⟩, hp⟩

theorem periods_for_class_mem (df : List TimetableRow) (g c : Int)
    (w : String) (p : Int) :
    p ∈ get_today_pe_periods_for_class df g c w ↔
      ∃ r ∈ df, r.grade = g ∧ r.class_no = c ∧ r.weekday = w ∧
        strContains r.subject PE_KEYWORD = true ∧ r.period = p := by
  simp only [get_today_pe_periods_for_class]
  split
  next he =>
    have h0 := List.isEmpty_iff.mp he
    rw [List.filter_eq_nil_iff] at h0
    simp only [List.not_mem_nil, false_iff]
    rintro ⟨r, hr, hg, hc, hw, hcont, hp⟩
    exact h0 r hr (by simp [hg, hc, hw, hcont])
  next he =>
    rw [mem_sortedInts, List.mem_map]
    constructor
    · rintro ⟨r, hr, hp⟩
      have hm := List.mem_filter.mp hr
      have hcond := hm.2
      simp only [Bool.and_eq_true, beq_iff_eq] at hcond
      exact ⟨r, hm.1, hcond.1.1.1, hcond.1.1.2, hcond.1.2, hcond.2, hp⟩
    · rintro ⟨r, hr, hg, hc, hw, hcont, hp⟩
      exact ⟨r, List.mem_filter.mpr ⟨hr, by simp [hg, hc, hw, hcont]⟩, hp⟩

/-! ### Claims about the summary queries -/

/-- C6: `get_today_pe_periods_for_class` returns the distinct period
numbers of rows matching grade, class and weekday whose subject contains
the PE keyword, in strictly ascending order (hence duplicate-free and
independent of input row order), and is empty when no such row exists. -/
theorem claim_C6_periods_for_class (df : List TimetableRow) (g c : Int)
    (w : String) :
    (get_today_pe_periods_for_class df g c w).Pairwise (· < ·) ∧
    ∀ p : Int, p ∈ get_today_pe_periods_for_class df g c w ↔
      ∃ r ∈ df, r.grade = g ∧ r.class_no = c ∧ r.weekday = w ∧
        strContains r.subject PE_KEYWORD = true ∧ r.period = p := by
  refine ⟨?_, fun p => periods_for_class_mem df g c w p⟩
  simp only [get_today_pe_periods_for_class]
  split
  · exact List.Pairwise.nil
  · exact sortedInts_pairwise_lt _

/-- Witness for C6: in the sample timetable, grade 1 class 2 has PE in
period 3 on Tuesday (화요일), via the 체육(축구) row. -/
theorem claim_C6_witness :
    (3 : Int) ∈ get_today_pe_periods_for_class sample_timetable 1 2 "화요일" :=
  ((claim_C6_periods_for_class sample_timetable 1 2 "화요일").2 3).mpr
    ⟨⟨1, 2, "화요일", 3, "체육(축구)"⟩, by decide, rfl, rfl, rfl, by decide, rfl⟩

/-- C10: cross-query consistency: `check_pe` is true exactly when the
period is in the list returned by `get_today_pe_periods_for_class` for the
same timetable, grade, class and weekday. -/
theorem claim_C10_cross_query (df : List TimetableRow) (g c : Int)
    (w : String) (p : Int) :
    check_pe df g c w p = true ↔
      p ∈ get_today_pe_periods_for_class df g c w := by
  rw [check_pe_iff, periods_for_class_mem]
  constructor
  · rintro ⟨r, hr, hg, hc, hw, hp, hcont⟩
    exact ⟨r, hr, hg, hc, hw, hcont, hp⟩
  · rintro ⟨r, hr, hg, hc, hw, hcont, hp⟩
    exact ⟨r, hr, hg, hc, hw, hp, hcont⟩

/-- Witness for C10: `check_pe` is true for (1, 2, 화요일, 5) on the sample
timetable, so period 5 is in the class's PE period list. -/
theorem claim_C10_witness :
    (5 : Int) ∈ get_today_pe_periods_for_class sample_timetable 1 2 "화요일" :=
  (claim_C10_cross_query sample_timetable 1 2 "화요일" 5).mp (by decide)

/-- C5: `get_today_pe_summary` keeps exactly the rows of the given weekday
whose subject contains the PE keyword, groups them by (grade, class_no)
with each group's period numbers de-duplicated and sorted ascending,
returns the groups sorted strictly by (grade, class_no) — hence with no
duplicate pair — and returns the empty list when no row matches. -/
theorem claim_C5_summary (df : List TimetableRow) (w : String) :
    (get_today_pe_summary df w).Pairwise
      (fun a b => a.1 < b.1 ∨ (a.1 = b.1 ∧ a.2.1 < b.2.1)) ∧
    (∀ (g c : Int) (ps : List Int), (g, c, ps) ∈ get_today_pe_summary df w →
      ps.Pairwise (· < ·) ∧
      ∀ p : Int, p ∈ ps ↔
        ∃ r ∈ df, r.weekday = w ∧ strContains r.subject PE_KEYWORD = true ∧
          r.grade = g ∧ r.class_no = c ∧ r.period = p) ∧
    (∀ g c : Int, (∃ ps, (g, c, ps) ∈ get_today_pe_summary df w) ↔
      ∃ r ∈ df, r.weekday = w ∧ strContains r.subject PE_KEYWORD = true ∧
        r.grade = g ∧ r.class_no = c) ∧
    ((∀ r ∈ df, ¬(r.weekday = w ∧ strContains r.subject PE_KEYWORD = true)) →
      get_today_pe_summary df w = []) := by
  by_cases he : (df.filter (fun r =>
      r.weekday == w && strContains r.subject PE_KEYWORD)).isEmpty = true
  · have h0 := List.isEmpty_iff.mp he
    rw [List.filter_eq_nil_iff] at h0
    simp only [get_today_pe_summary]
    rw [if_pos he]
    refine ⟨List.Pairwise.nil, ?_, ?_, fun _ => rfl⟩
    · intro g c ps hm
      exact absurd hm (List.not_mem_nil _)
    · intro g c
      constructor
      · rintro ⟨ps, hps⟩
        exact absurd hps (List.not_mem_nil _)
      · rintro ⟨r, hr, hw2, hcont, -, -⟩
        exact absurd (by simp [hw2, hcont] :
            (r.weekday == w && strContains r.subject PE_KEYWORD) = true)
          (h0 r hr)
  · simp only [get_today_pe_summary]
    rw [if_neg he]
    refine ⟨?_, ?_, ?_, ?_⟩
    · rw [List.pairwise_map]
      exact keys_sorted _
    · intro g c ps hm
      rw [List.mem_map] at hm
      obtain ⟨k, hk, hfk⟩ := hm
      simp only [Prod.mk.injEq] at hfk
      obtain ⟨h1, h2, h3⟩ := hfk
      subst h1
      subst h2
      subst h3
      refine ⟨group_periods_pairwise _ _ _, fun p => ?_⟩
      rw [group_periods_mem]
      constructor
      · rintro ⟨r, hr, hg, hc, hp⟩
        have hm2 := List.mem_filter.mp hr
        have hcond := hm2.2
        simp only [Bool.and_eq_true, beq_iff_eq] at hcond
        exact ⟨r, hm2.1, hcond.1, hcond.2, hg, hc, hp⟩
      · rintro ⟨r, hr, hw2, hcont, hg, hc, hp⟩
        exact ⟨r, List.mem_filter.mpr ⟨hr, by simp [hw2, hcont]⟩, hg, hc, hp⟩
    · intro g c
      constructor
      · rintro ⟨ps, hps⟩
        rw [List.mem_map] at hps
        obtain ⟨k, hk, hfk⟩ := hps
        simp only [Prod.mk.injEq] at hfk
        obtain ⟨h1, h2, -⟩ := hfk
        rw [mem_sortKeys, List.mem_map] at hk
        obtain ⟨r, hr, hkey⟩ := hk
        subst hkey
        have hm2 := List.mem_filter.mp hr
        have hcond := hm2.2
        simp only [Bool.and_eq_true, beq_iff_eq] at hcond
        exact ⟨r, hm2.1, hcond.1, hcond.2, h1, h2⟩
      · rintro ⟨r, hr, hw2, hcont, hg, hc⟩
        have hrs : r ∈ df.filter (fun r =>
            r.weekday == w && strContains r.subject PE_KEYWORD) :=
          List.mem_filter.mpr ⟨hr, by simp [hw2, hcont]⟩
        have hk : (g, c) ∈ List.insertionSort keyLe
            (((df.filter (fun r =>
                r.weekday == w && strContains r.subject PE_KEYWORD)).map
              (fun r => (r.grade, r.class_no))).dedup) := by
          rw [mem_sortKeys, List.mem_map]
          exact ⟨r, hrs, by simp [hg, hc]⟩
        exact ⟨group_periods (df.filter (fun r =>
            r.weekday == w && strContains r.subject PE_KEYWORD)) g c,
          List.mem_map.mpr ⟨(g, c), hk, rfl⟩⟩
    · intro h
      exfalso
      apply he
      rw [List.isEmpty_iff, List.filter_eq_nil_iff]
      intro r hr hcond
      simp only [Bool.and_eq_true, beq_iff_eq] at hcond
      exact h r hr hcond

/-- Witness for C5: on the sample timetable, the Tuesday (화요일) summary
contains the group (1, 2, [3, 5]), whose period list is strictly ascending
and characterizes exactly the PE rows of grade 1 class 2. -/
theorem claim_C5_witness :
    ([3, 5] : List Int).Pairwise (· < ·) ∧
    ∀ p : Int, p ∈ ([3, 5] : List Int) ↔
      ∃ r ∈ sample_timetable, r.weekday = "화요일" ∧
        strContains r.subject PE_KEYWORD = true ∧ r.grade = 1 ∧
        r.class_no = 2 ∧ r.period = p :=
  (claim_C5_summary sample_timetable "화요일").2.1 1 2 [3, 5] (by decide)

/-- Witness for C1: at 11:00 the schedule decomposes as the first two
windows (which do not contain 11:00), window 3 = [10:50, 11:40) (which
does), and the rest, so the resolver returns period 3. -/
theorem claim_C1_witness :
    get_period_from_now ⟨2026, 10, 12, 11, 0, 0, 0⟩ = some 3 :=
  ((claim_C1_resolver_first_match ⟨2026, 10, 12, 11, 0, 0, 0⟩).1 3).mpr
    ⟨[⟨1, (8, 50), (9, 40)⟩, ⟨2, (9, 50), (10, 40)⟩], ⟨3, (10, 50), (11, 40)⟩,
     [⟨4, (11, 50), (12, 40)⟩, ⟨5, (13, 40), (14, 30)⟩,
      ⟨6, (14, 40), (15, 30)⟩, ⟨7, (15, 40), (16, 30)⟩],
     by decide, by decide, rfl, by decide⟩

end App
